import Mathlib

/-!
Verification development for the Minecash crash-game backend.

The definitions below are a shallow embedding of the JavaScript sources:
* `src/server/games/crash-game.js` (the `CrashGame` class: crash-point
  generation, the game-loop tick, bet/cash-out processing, round lifecycle),
* the `GameLoopEngine` file (`generateCrashPointFromHash`,
  `verifyCrashPointFromHash`),
* `src/config/game-config.js` (house edge / bet-limit configuration).

Modelling conventions:
* JavaScript numbers are modelled as exact rationals (`ℚ`).  All the numeric
  facts proved below are robust to double rounding: every comparison that a
  theorem depends on holds with a margin far wider than the relative error of
  IEEE double arithmetic on the operands involved.
* `NaN` (which `parseInt` can produce) is modelled with `Option`.
* `crypto.createHash('sha256')` is embedded as an executable SHA-256 over
  byte lists, with 32-bit words represented as `ℕ` reduced mod `2 ^ 32`.
* Database and websocket effects are modelled as explicit oracle inputs and
  emitted event lists; within a tick the source awaits these calls in program
  order, so the event list order is the order the effects are issued.
-/

namespace Minecash

/-! ## SHA-256 (`crypto.createHash('sha256').update(...).digest(...)`) -/

namespace SHA256

/-- Reduce to a 32-bit word. -/
def w32 (n : ℕ) : ℕ := n % 2 ^ 32

/-- 32-bit right rotation. -/
def rotr (x n : ℕ) : ℕ := w32 ((x >>> n) ||| (x <<< (32 - n)))

/-- 32-bit complement. -/
def wnot (x : ℕ) : ℕ := (2 ^ 32 - 1) - w32 x

/-- SHA-256 `Ch` function. -/
def ch (x y z : ℕ) : ℕ := w32 ((x &&& y) ^^^ (wnot x &&& z))

/-- SHA-256 `Maj` function. -/
def maj (x y z : ℕ) : ℕ := w32 ((x &&& y) ^^^ (x &&& z) ^^^ (y &&& z))

/-- SHA-256 big sigma 0. -/
def bigSigma0 (x : ℕ) : ℕ := rotr x 2 ^^^ rotr x 13 ^^^ rotr x 22

/-- SHA-256 big sigma 1. -/
def bigSigma1 (x : ℕ) : ℕ := rotr x 6 ^^^ rotr x 11 ^^^ rotr x 25

/-- SHA-256 small sigma 0. -/
def smallSigma0 (x : ℕ) : ℕ := rotr x 7 ^^^ rotr x 18 ^^^ (x >>> 3)

/-- SHA-256 small sigma 1. -/
def smallSigma1 (x : ℕ) : ℕ := rotr x 17 ^^^ rotr x 19 ^^^ (x >>> 10)

/-- The 64 SHA-256 round constants, written in decimal. -/
def K : List ℕ :=
  [1116352408, 1899447441, 3049323471, 3921009573,
   961987163, 1508970993, 2453635748, 2870763221,
   3624381080, 310598401, 607225278, 1426881987,
   1925078388, 2162078206, 2614888103, 3248222580,
   3835390401, 4022224774, 264347078, 604807628,
   770255983, 1249150122, 1555081692, 1996064986,
   2554220882, 2821834349, 2952996808, 3210313671,
   3336571891, 3584528711, 113926993, 338241895,
   666307205, 773529912, 1294757372, 1396182291,
   1695183700, 1986661051, 2177026350, 2456956037,
   2730485921, 2820302411, 3259730800, 3345764771,
   3516065817, 3600352804, 4094571909, 275423344,
   430227734, 506948616, 659060556, 883997877,
   958139571, 1322822218, 1537002063, 1747873779,
   1955562222, 2024104815, 2227730452, 2361852424,
   2428436474, 2756734187, 3204031479, 3329325298]

/-- The running hash value: eight 32-bit words. -/
structure HashState where
  a : ℕ
  b : ℕ
  c : ℕ
  d : ℕ
  e : ℕ
  f : ℕ
  g : ℕ
  h : ℕ

/-- SHA-256 initial hash value, in decimal. -/
def initH : HashState :=
  ⟨1779033703, 3144134277, 1013904242, 2773480762,
   1359893119, 2600822924, 528734635, 1541459225⟩

/-- Collect four big-endian bytes into a word. -/
def wordOfBytes (b0 b1 b2 b3 : ℕ) : ℕ :=
  w32 (((b0 % 256) <<< 24) + ((b1 % 256) <<< 16) + ((b2 % 256) <<< 8) + b3 % 256)

/-- Split a byte list into big-endian 32-bit words. -/
def toWords : List ℕ → List ℕ
  | b0 :: b1 :: b2 :: b3 :: rest => wordOfBytes b0 b1 b2 b3 :: toWords rest
  | _ => []

/-- Extend a message-schedule prefix by `n` further words. -/
def extendSchedule (w : List ℕ) : ℕ → List ℕ
  | 0 => w
  | n + 1 =>
    let t := w.length
    let nw := w32 (smallSigma1 (w.getD (t - 2) 0) + w.getD (t - 7) 0 +
      smallSigma0 (w.getD (t - 15) 0) + w.getD (t - 16) 0)
    extendSchedule (w ++ [nw]) n

/-- Full 64-word message schedule of one block. -/
def msgSchedule (block : List ℕ) : List ℕ :=
  extendSchedule (toWords block) 48

/-- One SHA-256 round. -/
def roundStep (st : HashState) (k w : ℕ) : HashState :=
  let t1 := w32 (st.h + bigSigma1 st.e + ch st.e st.f st.g + k + w)
  let t2 := w32 (bigSigma0 st.a + maj st.a st.b st.c)
  ⟨w32 (t1 + t2), st.a, st.b, st.c, w32 (st.d + t1), st.e, st.f, st.g⟩

/-- Compress one 64-byte block into the running hash value. -/
def compressBlock (hs : HashState) (block : List ℕ) : HashState :=
  let w := msgSchedule block
  let f := (List.range 64).foldl (fun st t => roundStep st (K.getD t 0) (w.getD t 0)) hs
  ⟨w32 (hs.a + f.a), w32 (hs.b + f.b), w32 (hs.c + f.c), w32 (hs.d + f.d),
   w32 (hs.e + f.e), w32 (hs.f + f.f), w32 (hs.g + f.g), w32 (hs.h + f.h)⟩

/-- Process all 64-byte blocks of an already padded message.  The first
argument is recursion fuel; each step consumes one 64-byte block, so any fuel
of at least the byte count (as supplied by `processBlocks`) is inexhaustible. -/
def processBlocksGo : ℕ → HashState → List ℕ → HashState
  | 0, hs, _ => hs
  | _ + 1, hs, [] => hs
  | fuel + 1, hs, b :: rest =>
    processBlocksGo fuel (compressBlock hs (b :: rest.take 63)) (rest.drop 63)

/-- Process all 64-byte blocks of an already padded message. -/
def processBlocks (hs : HashState) (bytes : List ℕ) : HashState :=
  processBlocksGo bytes.length hs bytes

/-- Big-endian 8-byte encoding of the bit length. -/
def lenBytes (n : ℕ) : List ℕ :=
  [(n >>> 56) % 256, (n >>> 48) % 256, (n >>> 40) % 256, (n >>> 32) % 256,
   (n >>> 24) % 256, (n >>> 16) % 256, (n >>> 8) % 256, n % 256]

/-- SHA-256 padding: append `0x80`, zero bytes, and the 64-bit bit length. -/
def padMessage (msg : List ℕ) : List ℕ :=
  let L := msg.length
  let k := (64 - ((L + 9) % 64)) % 64
  msg ++ 0x80 :: (List.replicate k 0 ++ lenBytes (L * 8))

/-- Big-endian bytes of one hash word. -/
def wordBytes (w : ℕ) : List ℕ :=
  [(w >>> 24) % 256, (w >>> 16) % 256, (w >>> 8) % 256, w % 256]

/-- The 32 digest bytes of a final hash value. -/
def digestBytes (hs : HashState) : List ℕ :=
  wordBytes hs.a ++ wordBytes hs.b ++ wordBytes hs.c ++ wordBytes hs.d ++
  wordBytes hs.e ++ wordBytes hs.f ++ wordBytes hs.g ++ wordBytes hs.h

end SHA256

/-- SHA-256 of a byte list, as the 32 digest bytes. -/
def sha256 (msg : List ℕ) : List ℕ :=
  SHA256.digestBytes (SHA256.processBlocks SHA256.initH (SHA256.padMessage msg))

/-- UTF-8 encoding of one character (Node's default encoding for
`hash.update(string)`). -/
def utf8Char (c : Char) : List ℕ :=
  let n := c.toNat
  if n < 0x80 then [n]
  else if n < 0x800 then [0xc0 + n / 64, 0x80 + n % 64]
  else if n < 0x10000 then
    [0xe0 + n / 4096, 0x80 + (n / 64) % 64, 0x80 + n % 64]
  else
    [0xf0 + n / 262144, 0x80 + (n / 4096) % 64, 0x80 + (n / 64) % 64, 0x80 + n % 64]

/-- UTF-8 bytes of a string. -/
def strBytes (s : String) : List ℕ := s.data.flatMap utf8Char

/-- Lowercase hex character of a value below 16 (`Buffer`/`digest('hex')`
alphabet). -/
def hexChar (n : ℕ) : Char :=
  Char.ofNat (if n < 10 then 48 + n else 87 + n)

/-- Lowercase hex rendering of a byte list (`digest('hex')`). -/
def hexOfBytes (l : List ℕ) : List Char :=
  l.flatMap (fun b => [hexChar (b / 16), hexChar (b % 16)])

/-- Value of a hex digit, `none` for a non-digit.  `parseInt(..., 16)` accepts
both cases. -/
def hexVal (c : Char) : Option ℕ :=
  if 48 ≤ c.toNat ∧ c.toNat ≤ 57 then some (c.toNat - 48)
  else if 97 ≤ c.toNat ∧ c.toNat ≤ 102 then some (c.toNat - 87)
  else if 65 ≤ c.toNat ∧ c.toNat ≤ 70 then some (c.toNat - 55)
  else none

/-- Accumulate hex digits until the first non-digit (`parseInt` stops there). -/
def parseHexAcc (acc : ℕ) : List Char → ℕ
  | [] => acc
  | c :: rest =>
    match hexVal c with
    | none => acc
    | some d => parseHexAcc (16 * acc + d) rest

/-- `parseInt(s, 16)` on a hex-digest substring: `none` models the `NaN`
result when the first character is not a hex digit.  (The `0x` prefix and
sign/whitespace cases of `parseInt` cannot occur on a hex digest and are not
modelled.) -/
def jsParseIntHex : List Char → Option ℕ
  | [] => none
  | c :: rest =>
    match hexVal c with
    | none => none
    | some d => some (parseHexAcc d rest)

/-! ## JavaScript numeric helpers over `ℚ` -/

/-- JavaScript `%` for a nonnegative dividend and positive divisor (the only
case the sources use): `a - b * trunc(a / b) = a - b * ⌊a / b⌋`. -/
def jsMod (a b : ℚ) : ℚ := a - b * (⌊a / b⌋ : ℤ)

/-- JavaScript `Math.round`: round half toward positive infinity. -/
def jsRound (x : ℚ) : ℚ := (⌊x + 1 / 2⌋ : ℤ)

/-- `parseFloat(x.toFixed(2))` for a nonnegative `x`: round to two decimal
places. -/
def round2 (x : ℚ) : ℚ := (⌊x * 100 + 1 / 2⌋ : ℤ) / 100

/-! ## Crash-point generators

`generateCrashMultiplier` is `CrashGame.generateCrashMultiplier(serverSeed,
clientSeed)` from `src/server/games/crash-game.js` lines 116-124.
`generateCrashPointFromHash` / `verifyCrashPointFromHash` are the
`GameLoopEngine` methods of the same names. -/

/-- The arithmetic tail of `CrashGame.generateCrashMultiplier` after
`parseInt`: `x = (h % 2^52) / 2^52`, `result = (1 / (1 - x)) * 0.99`,
`Math.max(1.00, result)`.  `none` models the `NaN` outcome of `parseInt`
(in which case every following operation, including `Math.max`, is `NaN`). -/
def crashMultiplierOfParse : Option ℕ → Option ℚ
  | none => none
  | some h =>
    let e : ℚ := 2 ^ 52
    let x : ℚ := jsMod (h : ℚ) e / e
    let result := (1 / (1 - x)) * (99 / 100)
    some (max 1 result)

/-- `CrashGame.generateCrashMultiplier(serverSeed, clientSeed)`:
hash the concatenated seeds with SHA-256, parse the first 8 hex digits of the
digest (`parseInt(hash.substring(0, 8), 16)`), and hand the result to the
arithmetic tail above. -/
def generateCrashMultiplier (serverSeed clientSeed : String) : Option ℚ :=
  crashMultiplierOfParse
    (jsParseIntHex ((hexOfBytes (sha256 (strBytes (serverSeed ++ clientSeed)))).take 8))

/-- The integer `h` that `GameLoopEngine.generateCrashPointFromHash` folds out
of the first (at most) 8 bytes of `Buffer.from(hash, 'hex')`:
`h = (h * 256 + hashBuffer[i]) % 2^52`. -/
def hashInt (hashBytes : List ℕ) : ℕ :=
  (hashBytes.take 8).foldl (fun h b => (h * 256 + b) % 2 ^ 52) 0

/-- `GameLoopEngine.generateCrashPointFromHash(hash, div = 33, g = 1)` with the
hash given as its bytes (`Buffer.from(hash, 'hex')`) and the house edge
(`this.gameConfig.getHouseEdge('crash')`) as an explicit parameter.  The
growth-rate parameter is fixed at its default `g = 1` (its only use in the
repository), for which the source's validation leaves `g = 1` unchanged and
`Math.pow(e / (e - h), 1 / g)` is `e / (e - h)`; other values of `g` need a
transcendental power and are outside this embedding. -/
def generateCrashPointFromHash (hashBytes : List ℕ) (div : ℚ) (houseEdge : ℚ) : ℚ :=
  let e : ℚ := 2 ^ 52
  let h := hashInt hashBytes
  -- div = Math.max(1, Math.round(div * 100) / 100)
  let div := max 1 (jsRound (div * 100) / 100)
  if jsMod (h : ℚ) div = 0 then 1
  else
    let crashPoint := 99 / 100 * (e / (e - (h : ℚ))) + 1 / 100
    let crashPoint := crashPoint * (1 - houseEdge)
    max 1 (round2 crashPoint)

/-- Result record of `GameLoopEngine.verifyCrashPointFromHash`. -/
structure VerifyResult where
  verified : Bool
  calculated : ℚ
  expected : ℚ

/-- `GameLoopEngine.verifyCrashPointFromHash(hash, expectedCrashPoint, div, g)`
(again with `g` fixed at its default `1` and the house edge explicit):
recompute the crash point and compare within the `0.01` tolerance. -/
def verifyCrashPointFromHash (hashBytes : List ℕ) (expectedCrashPoint : ℚ)
    (div : ℚ) (houseEdge : ℚ) : VerifyResult :=
  let calculated := generateCrashPointFromHash hashBytes div houseEdge
  ⟨decide (|calculated - expectedCrashPoint| < 1 / 100), calculated, expectedCrashPoint⟩

/-- The crash house edge configured in `src/config/game-config.js`
(`houseEdge.crash = 0.05`). -/
def crashHouseEdge : ℚ := 5 / 100

/-- Modelled from the spec (refinement comparison for the generator claim):
the spec's crash-point algorithm applied to a pair of seeds — hash the
concatenated seeds, derive the fixed-width integer from the hash bytes, map it
into `[0,1)`, instant-crash on divisibility by the divisor `33`, otherwise
`0.99 × (1 / (1 - x)) + 0.01` scaled by `(1 - houseEdge)` and floored at
`1.00`.  This is the composition of the repository's hash-level generator with
the seed hashing, which is what the spec sentence describes. -/
def specSeedCrashPoint (serverSeed clientSeed : String) (houseEdge : ℚ) : ℚ :=
  generateCrashPointFromHash (sha256 (strBytes (serverSeed ++ clientSeed))) 33 houseEdge

/-! ## Facts about the digest, `parseInt` and the generator arithmetic -/

theorem sha256_ne_nil (m : List ℕ) : sha256 m ≠ [] := by
  simp [sha256, SHA256.digestBytes, SHA256.wordBytes]

theorem sha256_bytes_lt (m : List ℕ) : ∀ b ∈ sha256 m, b < 256 := by
  intro b hb
  simp only [sha256, SHA256.digestBytes, SHA256.wordBytes, List.mem_append,
    List.mem_cons, List.not_mem_nil, or_false] at hb
  omega

theorem hexVal_hexChar (n : ℕ) (h : n < 16) : hexVal (hexChar n) = some n := by
  interval_cases n <;> rfl

theorem hexVal_lt {c : Char} {d : ℕ} (h : hexVal c = some d) : d < 16 := by
  unfold hexVal at h
  split_ifs at h with h1 h2 h3 <;> injection h with h <;> omega

theorem parseHexAcc_lt (cs : List Char) (acc k : ℕ) (h : acc < 16 ^ k) :
    parseHexAcc acc cs < 16 ^ (k + cs.length) := by
  induction cs generalizing acc k with
  | nil => simpa [parseHexAcc] using h
  | cons c rest ih =>
    simp only [parseHexAcc]
    cases hv : hexVal c with
    | none =>
      calc acc < 16 ^ k := h
        _ ≤ 16 ^ (k + (c :: rest).length) := Nat.pow_le_pow_right (by norm_num) (by omega)
    | some d =>
      have hd : d < 16 := hexVal_lt hv
      have : 16 * acc + d < 16 ^ (k + 1) := by
        have : 16 * acc + 16 ≤ 16 * 16 ^ k := by omega
        calc 16 * acc + d < 16 * acc + 16 := by omega
          _ ≤ 16 * 16 ^ k := this
          _ = 16 ^ (k + 1) := by ring
      have := ih (16 * acc + d) (k + 1) this
      simpa [Nat.add_comm, Nat.add_assoc, Nat.add_left_comm] using this

/-- `parseInt` on the first 8 characters of the hex digest of a nonempty byte
list is a genuine number below `2 ^ 32`. -/
theorem jsParseIntHex_take8 (l : List ℕ) (hne : l ≠ [])
    (hlt : ∀ b ∈ l, b < 256) :
    ∃ h, jsParseIntHex ((hexOfBytes l).take 8) = some h ∧ h < 2 ^ 32 := by
  obtain ⟨b, t, rfl⟩ := List.exists_cons_of_ne_nil hne
  have hb : b < 256 := hlt b (by simp)
  have hb16 : b / 16 < 16 := by omega
  have hrest : ((hexChar (b % 16) :: hexOfBytes t).take 7).length ≤ 7 :=
    le_trans (List.length_take_le _ _) (by simp)
  refine ⟨parseHexAcc (b / 16) ((hexChar (b % 16) :: hexOfBytes t).take 7), ?_, ?_⟩
  · simp only [hexOfBytes, List.flatMap_cons, List.cons_append, List.nil_append,
      List.take_succ_cons, jsParseIntHex, hexVal_hexChar _ hb16]
  · have h1 : (b / 16 : ℕ) < 16 ^ 1 := by simpa using hb16
    have := parseHexAcc_lt ((hexChar (b % 16) :: hexOfBytes t).take 7) (b / 16) 1 h1
    calc parseHexAcc (b / 16) ((hexChar (b % 16) :: hexOfBytes t).take 7)
        < 16 ^ (1 + ((hexChar (b % 16) :: hexOfBytes t).take 7).length) := this
      _ ≤ 16 ^ 8 := Nat.pow_le_pow_right (by norm_num) (by omega)
      _ = 2 ^ 32 := by norm_num

/-- The folded hash integer stays below `2 ^ 52`. -/
theorem hashInt_lt (hashBytes : List ℕ) : hashInt hashBytes < 2 ^ 52 := by
  have : ∀ (l : List ℕ) (acc : ℕ), acc < 2 ^ 52 →
      l.foldl (fun h b => (h * 256 + b) % 2 ^ 52) acc < 2 ^ 52 := by
    intro l
    induction l with
    | nil => intro acc h; simpa using h
    | cons b t ih =>
      intro acc _
      exact ih _ (Nat.mod_lt _ (by norm_num))
  exact this _ 0 (by norm_num)

theorem jsMod_eq_self {a b : ℚ} (h0 : 0 ≤ a) (hab : a < b) : jsMod a b = a := by
  have hb : 0 < b := lt_of_le_of_lt h0 hab
  have : ⌊a / b⌋ = 0 := by
    rw [Int.floor_eq_zero_iff]
    constructor
    · exact div_nonneg h0 hb.le
    · rwa [div_lt_one hb]
  simp [jsMod, this]

theorem floor_natCast_div_natCast (h n : ℕ) (hn : 0 < n) :
    ⌊(h : ℚ) / (n : ℚ)⌋ = (h / n : ℕ) := by
  have hn' : (0 : ℚ) < n := by exact_mod_cast hn
  rw [Int.floor_eq_iff]
  constructor
  · rw [le_div_iff₀ hn']
    exact_mod_cast Nat.div_mul_le_self h n
  · rw [div_lt_iff₀ hn']
    have h1 := Nat.div_add_mod h n
    have h2 := Nat.mod_lt h hn
    have : h < (h / n + 1) * n := by
      calc h = n * (h / n) + h % n := h1.symm
        _ < n * (h / n) + n := by omega
        _ = (h / n + 1) * n := by ring
    exact_mod_cast this

/-- `jsMod` on a natural number and a positive natural divisor is `%`. -/
theorem jsMod_natCast (h n : ℕ) (hn : 0 < n) :
    jsMod (h : ℚ) (n : ℚ) = ((h % n : ℕ) : ℚ) := by
  rw [jsMod, floor_natCast_div_natCast h n hn, Int.cast_natCast]
  have h1 : ((n : ℚ)) * ((h / n : ℕ) : ℚ) + ((h % n : ℕ) : ℚ) = h := by
    exact_mod_cast congrArg (Nat.cast : ℕ → ℚ) (Nat.div_add_mod h n)
  linarith

/-- The seed-level generator's continuous term is below `1` whenever the
parsed integer fits in 32 bits. -/
theorem crashResult_lt_one (h : ℕ) (hlt : h < 2 ^ 32) :
    (1 / (1 - (h : ℚ) / 2 ^ 52)) * (99 / 100) < 1 := by
  set x : ℚ := (h : ℚ) / 2 ^ 52 with hx
  have hx0 : 0 ≤ x := by positivity
  have hxs : x < 1 / 100 := by
    rw [hx, div_lt_div_iff₀ (by positivity) (by norm_num)]
    have : (h : ℚ) < 2 ^ 32 := by exact_mod_cast hlt
    nlinarith
  have hpos : (0 : ℚ) < 1 - x := by linarith
  have hlt1 : 1 / (1 - x) < 100 / 99 := by
    rw [div_lt_div_iff₀ hpos (by norm_num)]
    linarith
  nlinarith

set_option maxRecDepth 4000 in
/-- `CrashGame.generateCrashMultiplier` returns `1.00` on every pair of seed
strings: the first 8 hex digits of the digest give an integer below `2 ^ 32`,
so `x < 2 ^ (-20)` and `(1 / (1 - x)) * 0.99 < 1`, and the `Math.max(1.00, ·)`
floor always wins. -/
theorem generateCrashMultiplier_eq_one (serverSeed clientSeed : String) :
    generateCrashMultiplier serverSeed clientSeed = some 1 := by
  obtain ⟨h, hparse, hlt⟩ := jsParseIntHex_take8
    (sha256 (strBytes (serverSeed ++ clientSeed)))
    (sha256_ne_nil _) (sha256_bytes_lt _)
  have hself : jsMod (h : ℚ) ((2 : ℚ) ^ 52) = (h : ℚ) := by
    apply jsMod_eq_self (by positivity)
    have : (h : ℚ) < 2 ^ 32 := by exact_mod_cast hlt
    calc (h : ℚ) < 2 ^ 32 := this
      _ < 2 ^ 52 := by norm_num
  rw [generateCrashMultiplier, hparse]
  simp only [crashMultiplierOfParse, hself, Option.some.injEq]
  exact max_eq_left (crashResult_lt_one h hlt).le

/-! ## The crash round state machine

Shallow embedding of the `CrashGame` lifecycle methods
(`src/server/games/crash-game.js`).  The mutable `this.crashState` object and
idempotence flags become the `CrashState` record.  Time is abstracted: the
source compares wall-clock elapsed time against configured phase durations and
computes the live multiplier with the transcendental
`1.0024 * Math.pow(1.0718, timeElapsed)`; both enter the model as fields of
`TickInput` (`bettingExpired`, `resultExpired`, `liveMultiplier`).  Database
and websocket calls are in-order entries of the returned event list, with
their outcomes supplied by oracle fields of `TickInput`.  The
`phaseStartTime` / `resultPhaseStartTime` timestamps, the seeds / hash strings
and the `activePlayersCount` / `totalBetAmount` mirrors live only inside
those abstracted effects and carry no control flow, so they are not fields of
the model state. -/

/-- `crashState.phase`. -/
inductive Phase
  | waiting
  | betting
  | playing
  | crashed
deriving DecidableEq, Repr

/-- `game_bets.status` values used by the crash game. -/
inductive BetStatus
  | active
  | cashed_out
  | crashed
deriving DecidableEq, Repr

/-- One row of the `game_bets` table (the fields the crash game reads). -/
structure Bet where
  userId : ℕ
  roundId : ℕ
  amount : ℚ
  status : BetStatus
deriving DecidableEq, Repr

/-- The in-memory engine state: `this.crashState` plus the guard flags
`lastProcessedRound`, `lastRoundCompleted`, `isStartingNewRound`. -/
structure CrashState where
  phase : Phase
  currentRoundId : Option ℕ
  currentMultiplier : ℚ
  currentCrashPoint : ℚ
  currentRoundNumber : ℕ
  lastProcessedRound : Option ℕ
  lastRoundCompleted : Option ℕ
  isStartingNewRound : Bool
deriving DecidableEq, Repr

/-- Externally visible effects, in the order the source issues them. -/
inductive Event
  /-- `game_rounds` update writing `current_multiplier`. -/
  | dbWriteCurrentMultiplier (roundId : Option ℕ) (value : ℚ)
  /-- websocket room broadcast `crash_final_value`. -/
  | broadcastFinalValue (roundNumber : ℕ) (crashPoint : ℚ)
  /-- `handleCrashGame`: write `crash_multiplier`/`phase: crashed`, status
  `completed`. -/
  | dbWriteRoundCrashed (roundId : ℕ) (crashPoint : ℚ)
  /-- `game_bets` update `active → crashed` for the round. -/
  | dbMarkBetsCrashed (roundId : Option ℕ)
  /-- `game_rounds` update resetting `active_players_count`. -/
  | dbResetActivePlayers (roundId : Option ℕ)
  /-- `game_rounds` update marking the round `completed`. -/
  | dbCompleteRound (roundId : ℕ)
  /-- websocket room broadcast `round_completed`. -/
  | broadcastRoundCompleted (roundNumber : ℕ) (crashPoint : ℚ)
  /-- `create_game_round` RPC that returned the given id. -/
  | dbCreateRound (roundId : ℕ)
  /-- `startCrashGame`: write `phase: playing`, `current_multiplier: 1.00`. -/
  | dbWritePhasePlaying (roundId : Option ℕ)
  /-- `console.error` / `logger.error` of a swallowed failure. -/
  | logError
  /-- `console.error('CRITICAL: Payout amount mismatch', ...)`. -/
  | logCritical (expected actual : ℚ)
  /-- `place_bet` RPC. -/
  | rpcPlaceBet (userId : ℕ) (amount : ℚ)
  /-- `cashout_bet` RPC. -/
  | rpcCashoutBet (userId : ℕ) (value : ℚ)
  /-- `set_auto_cashout` RPC. -/
  | rpcSetAutoCashout (userId : ℕ) (target : ℚ)
  /-- one `process_auto_cashouts` RPC attempt of the retry loop. -/
  | rpcAutoCashoutAttempt (attempt : ℕ)
  /-- `setTimeout` backoff wait of the retry loop, in milliseconds. -/
  | sleep (ms : ℕ)
  /-- `sendToUser` notification `auto_cashout_triggered`. -/
  | notifyAutoCashout (userId : ℕ)
deriving DecidableEq, Repr

/-- Oracle inputs of one `onGameLoop` tick. -/
structure TickInput where
  /-- `timeElapsed > gameTiming.bettingPhase / 1000`. -/
  bettingExpired : Bool
  /-- `1.0024 * Math.pow(1.0718, timeElapsed)`, the recomputed playing-phase
  multiplier (transcendental in the elapsed time, hence an input). -/
  liveMultiplier : ℚ
  /-- `resultPhaseElapsed > resultPhaseDuration`. -/
  resultExpired : Bool
  /-- whether the `game_bets` `active → crashed` update succeeds. -/
  betsUpdateOk : Bool
  /-- `create_game_round` result for a new round (`none` = error). -/
  newRound : Option ℕ
  /-- the crash multiplier of the new round, computed by the source as
  `generateCrashMultiplier(randomServerSeed, 'default')` (equal to `1.00` for
  every seed by `generateCrashMultiplier_eq_one`). -/
  newCrashPoint : ℚ
deriving Repr

/-- `CrashGame.processRemainingCrashPlayers`: guarded by
`lastProcessedRound`, mark the round's still-`active` bets `crashed` and, on
success of that update, record the round as processed. -/
def processRemainingCrashPlayers (s : CrashState) (bets : List Bet)
    (inp : TickInput) : CrashState × List Bet × List Event :=
  if s.lastProcessedRound = s.currentRoundId then (s, bets, [])
  else if inp.betsUpdateOk then
    ({ s with lastProcessedRound := s.currentRoundId },
     bets.map fun b =>
       if some b.roundId = s.currentRoundId ∧ b.status = BetStatus.active then
         { b with status := BetStatus.crashed }
       else b,
     [Event.dbMarkBetsCrashed s.currentRoundId,
      Event.dbResetActivePlayers s.currentRoundId])
  else
    (s, bets, [Event.logError, Event.dbResetActivePlayers s.currentRoundId])

/-- `CrashGame.handleCrashGame`: once per round (`lastProcessedRound` guard),
persist the crashed round and process the remaining players. -/
def handleCrashGame (s : CrashState) (bets : List Bet) (inp : TickInput) :
    CrashState × List Bet × List Event :=
  if s.lastProcessedRound = s.currentRoundId then (s, bets, [])
  else
    let ev1 : List Event :=
      match s.currentRoundId with
      | some rid => [Event.dbWriteRoundCrashed rid s.currentCrashPoint]
      | none => []
    let r := processRemainingCrashPlayers s bets inp
    (r.1, r.2.1, ev1 ++ r.2.2)

/-- `CrashGame.startCrashGame`: transition `betting → playing` and persist the
phase change. -/
def startCrashGame (s : CrashState) (bets : List Bet) :
    CrashState × List Bet × List Event :=
  ({ s with phase := Phase.playing }, bets,
   [Event.dbWritePhasePlaying s.currentRoundId])

/-- The first half of `CrashGame.startNewCrashRound`: mark the previous round
completed and broadcast `round_completed` once (guarded by
`lastRoundCompleted`). -/
def completePreviousRound (s : CrashState) : CrashState × List Event :=
  match s.currentRoundId with
  | some rid =>
    if s.lastRoundCompleted ≠ some rid then
      ({ s with lastRoundCompleted := some rid },
       [Event.dbCompleteRound rid,
        Event.broadcastRoundCompleted s.currentRoundNumber s.currentCrashPoint])
    else (s, [Event.dbCompleteRound rid])
  | none => (s, [])

/-- `CrashGame.startNewCrashRound`: complete the previous round (broadcasting
`round_completed` once, guarded by `lastRoundCompleted`), then create the next
round and advance `currentRoundNumber` by one; on a round-creation error,
return with the state otherwise unchanged. -/
def startNewCrashRound (s : CrashState) (bets : List Bet) (inp : TickInput) :
    CrashState × List Bet × List Event :=
  let p := completePreviousRound s
  match inp.newRound with
  | none => (p.1, bets, p.2 ++ [Event.logError])
  | some rid =>
    ({ p.1 with
        currentRoundId := some rid,
        currentRoundNumber := p.1.currentRoundNumber + 1,
        phase := Phase.betting,
        currentMultiplier := 1,
        currentCrashPoint := inp.newCrashPoint,
        lastProcessedRound := p.1.lastProcessedRound },
     bets, p.2 ++ [Event.dbCreateRound rid])

/-- `CrashGame.onGameLoop`, one tick.  The periodic config reload and the
auto-cash-out sweep at the top of the source tick communicate only through the
external store and are modelled separately (`processAutoCashoutsModel`); the
source guard on the once-a-second multiplier persist,
`Math.floor(t) !== Math.floor(t - 1)`, is identically true, so that write
happens every tick. -/
def onGameLoop (s : CrashState) (bets : List Bet) (inp : TickInput) :
    CrashState × List Bet × List Event :=
  match s.phase with
  | Phase.waiting => (s, bets, [])
  | Phase.betting =>
    if inp.bettingExpired then startCrashGame s bets else (s, bets, [])
  | Phase.playing =>
    let s1 := { s with currentMultiplier := inp.liveMultiplier }
    let ev1 := [Event.dbWriteCurrentMultiplier s.currentRoundId inp.liveMultiplier]
    if s.currentCrashPoint ≤ s1.currentMultiplier ∧ s1.phase = Phase.playing ∧
        s.lastProcessedRound ≠ s.currentRoundId then
      let s2 := { s1 with currentMultiplier := s.currentCrashPoint }
      let ev2 := [Event.dbWriteCurrentMultiplier s.currentRoundId s.currentCrashPoint,
                  Event.broadcastFinalValue s.currentRoundNumber s.currentCrashPoint]
      let s3 := { s2 with phase := Phase.crashed }
      let r := handleCrashGame s3 bets inp
      (r.1, r.2.1, ev1 ++ ev2 ++ r.2.2)
    else (s1, bets, ev1)
  | Phase.crashed =>
    if inp.resultExpired ∧ s.isStartingNewRound = false then
      startNewCrashRound s bets inp
    else (s, bets, [])

/-- Iterate `onGameLoop`, accumulating the broadcast/store history. -/
def runTicks : CrashState × List Bet × List Event → List TickInput →
    CrashState × List Bet × List Event
  | st, [] => st
  | (s, bets, hist), inp :: rest =>
    let r := onGameLoop s bets inp
    runTicks (r.1, r.2.1, hist ++ r.2.2) rest

/-! ## The bet / action gateway -/

/-- Structured result returned across the gateway boundary
(`{ success, message }`; the extra payload fields carry no control flow). -/
structure ActionResult where
  success : Bool
  message : String
deriving DecidableEq, Repr

/-- `configManager.getGameConfig('crash')` bet limits (the source skips the
limit checks when the config lookup returns nothing). -/
structure GameLimits where
  minBet : ℚ
  maxBet : ℚ
deriving DecidableEq, Repr

/-- Modelled from the spec: the `place_bet` ledger RPC (a database function
not in `src/`) — atomically records one `active` bet for
`(userId, roundId, amount)` and returns `{bet_id, new_balance}`; on error (in
particular with no current round id) nothing is recorded.  The model input
`rpcOk` is the success oracle. -/
def placeBetLedger (bets : List Bet) (userId : ℕ) (amount : ℚ)
    (roundId : Option ℕ) (rpcOk : Bool) : Option (List Bet) :=
  match roundId, rpcOk with
  | some rid, true => some (bets ++ [⟨userId, rid, amount, BetStatus.active⟩])
  | _, _ => none

/-- `CrashGame.onProcessBet(userId, { amount })`: reject outside the betting
phase, then against the configured limits, then on a duplicate bet for the
round; otherwise delegate to `place_bet`. -/
def onProcessBet (s : CrashState) (bets : List Bet) (cfg : Option GameLimits)
    (userId : ℕ) (amount : ℚ) (rpcOk : Bool) :
    ActionResult × List Bet × List Event :=
  if s.phase ≠ Phase.betting then
    (⟨false, "betting is not currently open"⟩, bets, [])
  else if (match cfg with
           | some gc => decide (amount < gc.minBet)
           | none => false) then
    (⟨false, "minimum bet not met"⟩, bets, [])
  else if (match cfg with
           | some gc => decide (gc.maxBet < amount)
           | none => false) then
    (⟨false, "maximum bet exceeded"⟩, bets, [])
  else if (bets.find? fun b =>
      decide (b.userId = userId ∧ some b.roundId = s.currentRoundId)).isSome then
    (⟨false, "you already have a bet for this round"⟩, bets, [])
  else
    match placeBetLedger bets userId amount s.currentRoundId rpcOk with
    | some bets2 =>
      (⟨true, "bet placed successfully"⟩, bets2, [Event.rpcPlaceBet userId amount])
    | none =>
      (⟨false, "failed to place bet"⟩, bets, [Event.rpcPlaceBet userId amount])

/-- The `cashout_bet` ledger RPC outcome oracle: `err` models a rejected
promise or error result, `ok payout` a success reporting `payout_amount`. -/
inductive CashoutRpc
  | err
  | ok (payoutAmount : ℚ)
deriving DecidableEq, Repr

/-- Modelled from the spec: the `cashout_bet` ledger RPC (a database function
not in `src/`) — atomically marks the user's `active` bet for the round
`cashed_out` and pays out; on error nothing changes. -/
def cashoutLedger (bets : List Bet) (userId : ℕ) (roundId : Option ℕ) :
    List Bet :=
  bets.map fun b =>
    if b.userId = userId ∧ some b.roundId = roundId ∧ b.status = BetStatus.active
    then { b with status := BetStatus.cashed_out }
    else b

/-- `CrashGame.onProcessCashout(userId, cashoutValue)`: require an `active`
bet, call `cashout_bet`, then apply the precision safeguard — a reported
payout further than `0.01` from `bet_amount * cashoutValue` is logged as
critical and the cash-out is rejected. -/
def onProcessCashout (s : CrashState) (bets : List Bet) (userId : ℕ)
    (cashoutValue : ℚ) (rpc : CashoutRpc) :
    ActionResult × List Bet × List Event :=
  match bets.find? fun b =>
      decide (b.userId = userId ∧ some b.roundId = s.currentRoundId ∧
        b.status = BetStatus.active) with
  | none => (⟨false, "no active bet found to cashout"⟩, bets, [])
  | some userBet =>
    match rpc with
    | CashoutRpc.err =>
      (⟨false, "failed to process cashout"⟩, bets,
       [Event.rpcCashoutBet userId cashoutValue])
    | CashoutRpc.ok payout =>
      let bets2 := cashoutLedger bets userId s.currentRoundId
      let expected := userBet.amount * cashoutValue
      if 1 / 100 < |payout - expected| then
        (⟨false, "payout calculation error detected"⟩, bets2,
         [Event.rpcCashoutBet userId cashoutValue, Event.logCritical expected payout])
      else
        (⟨true, "cashout successful"⟩, bets2,
         [Event.rpcCashoutBet userId cashoutValue])

/-- `CrashGame.onProcessAutoCashout(userId, targetValue)`: require an `active`
bet and register the target through the `set_auto_cashout` RPC (the target
itself lives in the store). -/
def onProcessAutoCashout (s : CrashState) (bets : List Bet) (userId : ℕ)
    (targetValue : ℚ) (rpcOk : Bool) : ActionResult × List Bet × List Event :=
  match bets.find? fun b =>
      decide (b.userId = userId ∧ some b.roundId = s.currentRoundId ∧
        b.status = BetStatus.active) with
  | none => (⟨false, "no active bet found to set auto-cashout for"⟩, bets, [])
  | some _ =>
    if rpcOk then
      (⟨true, "auto-cashout set successfully"⟩, bets,
       [Event.rpcSetAutoCashout userId targetValue])
    else
      (⟨false, "failed to set auto-cashout"⟩, bets,
       [Event.rpcSetAutoCashout userId targetValue])

/-- The actions `CrashGame.onProcessAction` dispatches on.  A missing
`targetMultiplier` (`undefined`, falsy `0`) is the `none` case. -/
inductive GameAction
  | cashout
  | autoCashout (targetMultiplier : Option ℚ)
  | other (name : String)
deriving DecidableEq, Repr

/-- `CrashGame.onProcessAction(userId, action, data)`: phase-gate each action,
then delegate.  A manual cash-out uses the multiplier read at the instant of
the call (`this.crashState.currentMultiplier`), not a caller-supplied value. -/
def onProcessAction (s : CrashState) (bets : List Bet) (userId : ℕ)
    (action : GameAction) (rpc : CashoutRpc) (rpcOk : Bool) :
    ActionResult × List Bet × List Event :=
  match action with
  | GameAction.cashout =>
    if s.phase ≠ Phase.playing then
      (⟨false, "cashout is only available during the playing phase"⟩, bets, [])
    else
      onProcessCashout s bets userId s.currentMultiplier rpc
  | GameAction.autoCashout target =>
    if s.phase ≠ Phase.betting ∧ s.phase ≠ Phase.playing then
      (⟨false, "auto-cashout can only be set during betting or playing phase"⟩,
       bets, [])
    else
      match target with
      | none => (⟨false, "invalid target multiplier"⟩, bets, [])
      | some t =>
        if t < 1 then (⟨false, "invalid target multiplier"⟩, bets, [])
        else onProcessAutoCashout s bets userId t rpcOk
  | GameAction.other _ => (⟨false, "unknown action"⟩, bets, [])

/-! ## The auto-cash-out sweep retry loop -/

/-- A resolved `process_auto_cashouts` RPC: its `error` field and the list of
users it cashed out (`processed_users`; `processed_count` is its length). -/
structure SweepResolved where
  error : Bool
  processedUsers : List ℕ
deriving DecidableEq, Repr

/-- The retry `while` loop of `CrashGame.processAutoCashouts`:
`maxRetries = 3`; a resolved RPC (`oracle attempt = some r`) breaks out
immediately, a rejected one (`none`) increments `retryCount` and, if budget
remains, waits `50 * retryCount` ms before the next attempt.  The first
argument is structural recursion fuel (the caller passes `3`, enough for
`retryCount` climbing from `0` to `3`).  Returns the issued
attempt/backoff-wait events and the loop outcome. -/
def autoRetryGo (oracle : ℕ → Option SweepResolved) :
    ℕ → ℕ → List Event × Option SweepResolved
  | 0, _ => ([], none)
  | fuel + 1, retryCount =>
    if retryCount < 3 then
      match oracle retryCount with
      | some r => ([Event.rpcAutoCashoutAttempt retryCount], some r)
      | none =>
        if 3 ≤ retryCount + 1 then ([Event.rpcAutoCashoutAttempt retryCount], none)
        else
          let p := autoRetryGo oracle fuel (retryCount + 1)
          (Event.rpcAutoCashoutAttempt retryCount ::
            Event.sleep (50 * (retryCount + 1)) :: p.1, p.2)
    else ([], none)

/-- `CrashGame.processAutoCashouts` after its validity guards (valid playing
round, sane multiplier): run the retry loop; on error after retries log and
return; otherwise notify each processed user.  The function always returns
normally — a `catch` wraps the whole body. -/
def processAutoCashoutsModel (oracle : ℕ → Option SweepResolved) : List Event :=
  let p := autoRetryGo oracle 3 0
  match p.2 with
  | none => p.1 ++ [Event.logError]
  | some r =>
    if r.error then p.1 ++ [Event.logError]
    else p.1 ++ r.processedUsers.map Event.notifyAutoCashout

/-- The backoff waits of an event list, in order. -/
def sleepsOf (evs : List Event) : List ℕ :=
  evs.filterMap fun e =>
    match e with
    | Event.sleep ms => some ms
    | _ => none

/-- The RPC attempts of an event list, in order. -/
def attemptsOf (evs : List Event) : List ℕ :=
  evs.filterMap fun e =>
    match e with
    | Event.rpcAutoCashoutAttempt i => some i
    | _ => none

/-! ## Engine start-up (`CrashGame.onInitialize`) -/

/-- Start-up oracle: the store's latest `active` crash round (id,
`round_number`, `game_data.phase`, `game_data.crash_multiplier`) if any, and
the `create_game_round` result for a fresh round. -/
structure InitInput where
  existingActiveRound : Option (ℕ × ℕ × Phase × ℚ)
  newRound : Option ℕ
  /-- `generateCrashMultiplier(randomServerSeed, 'default')` of the fresh
  round (equal to `1.00` for every seed by `generateCrashMultiplier_eq_one`). -/
  newCrashPoint : ℚ
deriving Repr

/-- The constructor state of `CrashGame` (`this.crashState` defaults and
guard flags). -/
def constructorState : CrashState :=
  { phase := Phase.waiting
    currentRoundId := none
    currentMultiplier := 1
    currentCrashPoint := 1
    currentRoundNumber := 1
    lastProcessedRound := none
    lastRoundCompleted := none
    isStartingNewRound := false }

/-- `CrashGame.onInitialize`: recover the existing active round if there is
one (keeping the store's `round_number`); otherwise create a fresh round —
whose `currentRoundNumber` the source sets to the literal `1` (the comment
`// Will be set by the function` notwithstanding, nothing overwrites it).
`none` models the thrown round-creation error. -/
def onInitCrash (inp : InitInput) : Option CrashState :=
  match inp.existingActiveRound with
  | some (rid, rnum, ph, cp) =>
    some { constructorState with
      currentRoundId := some rid
      currentRoundNumber := rnum
      phase := ph
      currentCrashPoint := cp }
  | none =>
    match inp.newRound with
    | none => none
    | some rid =>
      some { constructorState with
        currentRoundId := some rid
        currentRoundNumber := 1
        phase := Phase.betting
        currentCrashPoint := inp.newCrashPoint }

/-- The round numbers a subscribed connection observes through the
`crash_final_value` broadcasts of a history. -/
def observedCrashRounds (evs : List Event) : List ℕ :=
  evs.filterMap fun e =>
    match e with
    | Event.broadcastFinalValue n _ => some n
    | _ => none

/-- Whether an event is a message pushed to connections (as opposed to a
store write or a log line). -/
def isWireBroadcast : Event → Bool
  | Event.broadcastFinalValue _ _ => true
  | Event.broadcastRoundCompleted _ _ => true
  | Event.notifyAutoCashout _ => true
  | _ => false

/-- The engine method `generateCrashMultiplier` as invoked on a live engine
instance: its body reads only its two seed arguments, never the mutable
`this.crashState`, which this wrapper makes explicit. -/
def generateCrashMultiplierOnEngine (_engineState : CrashState)
    (serverSeed clientSeed : String) : Option ℚ :=
  generateCrashMultiplier serverSeed clientSeed

/-! ## Claim theorems -/

set_option maxRecDepth 100000 in
/-- C1, counterexample.  The claim reads the spec algorithm (divisor
instant-crash, `0.99 × (1/(1-x)) + 0.01`, house-edge scaling, floor at 1.00)
as what "the crash point generator" computes from a pair of seeds.  At the
concrete seeds `"a"`, `"b"` the round engine's seed-level generator
(`CrashGame.generateCrashMultiplier`) returns `1.00`, while the spec algorithm
applied to the same seeds (`specSeedCrashPoint`, the hash-level
`generateCrashPointFromHash` composed with the seed hashing, at the configured
crash house edge) returns `8.05` — so the claim is false as stated. -/
theorem C1_counterexample :
    generateCrashMultiplier "a" "b" = some 1 ∧
    specSeedCrashPoint "a" "b" crashHouseEdge = 161 / 20 ∧
    generateCrashMultiplier "a" "b" ≠
      some (specSeedCrashPoint "a" "b" crashHouseEdge) := by
  refine ⟨by with_unfolding_all rfl, by with_unfolding_all rfl, ?_⟩
  have h1 : generateCrashMultiplier "a" "b" = some 1 := by with_unfolding_all rfl
  have h2 : specSeedCrashPoint "a" "b" crashHouseEdge = 161 / 20 := by
    with_unfolding_all rfl
  rw [h1, h2]
  intro h
  have := Option.some.inj h
  norm_num at this

/-- C1, amended.  The spec's algorithm is implemented by the hash-level
generator `GameLoopEngine.generateCrashPointFromHash`: with the default
divisor 33 it returns exactly `1.00` when the 52-bit integer folded from the
first 8 hash bytes is divisible by 33, and otherwise
`0.99 × (1/(1-x)) + 0.01` scaled by `(1 - houseEdge)`, rounded to two
decimals and floored at `1.00`.  The seed-level generator the round engine
actually calls, `CrashGame.generateCrashMultiplier`, does not implement that
algorithm: it returns `1.00` for every pair of seeds. -/
theorem C1_crash_generator_amended (hashBytes : List ℕ) (houseEdge : ℚ)
    (serverSeed clientSeed : String) :
    (generateCrashPointFromHash hashBytes 33 houseEdge =
      if hashInt hashBytes % 33 = 0 then 1
      else max 1 (round2 ((99 / 100 * (1 / (1 - (hashInt hashBytes : ℚ) / 2 ^ 52))
        + 1 / 100) * (1 - houseEdge)))) ∧
    generateCrashMultiplier serverSeed clientSeed = some 1 := by
  constructor
  · have hdiv : max (1 : ℚ) (jsRound ((33 : ℚ) * 100) / 100) = 33 := by
      rw [jsRound, show ((33 : ℚ) * 100 + 1 / 2) = ((6601 : ℕ) : ℚ) / ((2 : ℕ) : ℚ)
        by norm_num, floor_natCast_div_natCast 6601 2 (by norm_num)]
      norm_num
    have hmod : jsMod ((hashInt hashBytes : ℕ) : ℚ) (33 : ℚ) =
        ((hashInt hashBytes % 33 : ℕ) : ℚ) := by
      have h1 := jsMod_natCast (hashInt hashBytes) 33 (by norm_num)
      have h2 : ((33 : ℕ) : ℚ) = (33 : ℚ) := by norm_num
      rwa [h2] at h1
    have hfrac : (2 ^ 52 : ℚ) / (2 ^ 52 - (hashInt hashBytes : ℚ)) =
        1 / (1 - (hashInt hashBytes : ℚ) / 2 ^ 52) := by
      rw [one_sub_div (by norm_num : (2 ^ 52 : ℚ) ≠ 0), one_div_div]
    simp only [generateCrashPointFromHash, hdiv, hmod, hfrac]
    by_cases hc : hashInt hashBytes % 33 = 0
    · rw [if_pos (by exact_mod_cast hc), if_pos hc]
    · rw [if_neg (fun hq => hc (by exact_mod_cast hq)), if_neg hc]
  · exact generateCrashMultiplier_eq_one serverSeed clientSeed

/-- C2: the crash multiplier is a pure, deterministic function of the seeds —
the engine method reads no mutable engine state, so two runs on the same
seeds at any two engine states agree — and for every hash the verification
function applied to the hash-level generator's own output reports
`verified = true` (the recomputation equals the claimed value, well within
the `0.01` tolerance). -/
theorem C2_deterministic_and_verifiable :
    (∀ (st1 st2 : CrashState) (serverSeed clientSeed : String),
      generateCrashMultiplierOnEngine st1 serverSeed clientSeed =
        generateCrashMultiplierOnEngine st2 serverSeed clientSeed) ∧
    (∀ (hashBytes : List ℕ) (div houseEdge : ℚ),
      (verifyCrashPointFromHash hashBytes
        (generateCrashPointFromHash hashBytes div houseEdge)
        div houseEdge).verified = true) := by
  refine ⟨fun _ _ _ _ => rfl, fun hashBytes div houseEdge => ?_⟩
  simp [verifyCrashPointFromHash]

/-- C3: `CrashGame.generateCrashMultiplier` returns exactly `1.00` for every
pair of seed strings — the integer parsed from the first 8 hex digits of the
SHA-256 digest is below `2 ^ 32`, so `x = h / 2 ^ 52 < 2 ^ (-20)`,
`(1 / (1 - x)) × 0.99 < 1`, and `Math.max(1.00, ·)` always yields `1.00`;
every round's target crash multiplier is therefore `1.00`. -/
theorem C3_crash_multiplier_always_one (serverSeed clientSeed : String) :
    generateCrashMultiplier serverSeed clientSeed = some 1 :=
  generateCrashMultiplier_eq_one serverSeed clientSeed

/-- C4: on a playing-phase tick whose recomputed multiplier has reached the
crash point, with the round not yet processed, the tick (a) snaps
`currentMultiplier` exactly to `crashMultiplier` — the post-tick state and
the single wire broadcast of the tick (the `crash_final_value` event) both
carry exactly the crash point, never the overshooting recomputed value —
(b) transitions the phase to `crashed`, and (c) runs crash finalization,
recording the round in `lastProcessedRound` so that finalization is a no-op
on any later call for the same round. -/
theorem C4_crash_tick_snaps_and_finalizes_once (s : CrashState)
    (bets : List Bet) (inp : TickInput) (rid : ℕ)
    (hphase : s.phase = Phase.playing)
    (hrid : s.currentRoundId = some rid)
    (hguard : s.lastProcessedRound ≠ s.currentRoundId)
    (hge : s.currentCrashPoint ≤ inp.liveMultiplier)
    (hdb : inp.betsUpdateOk = true) :
    (onGameLoop s bets inp).1.currentMultiplier = s.currentCrashPoint ∧
    (onGameLoop s bets inp).1.phase = Phase.crashed ∧
    (onGameLoop s bets inp).1.lastProcessedRound = s.currentRoundId ∧
    (onGameLoop s bets inp).2.2 =
      [Event.dbWriteCurrentMultiplier (some rid) inp.liveMultiplier,
       Event.dbWriteCurrentMultiplier (some rid) s.currentCrashPoint,
       Event.broadcastFinalValue s.currentRoundNumber s.currentCrashPoint,
       Event.dbWriteRoundCrashed rid s.currentCrashPoint,
       Event.dbMarkBetsCrashed (some rid),
       Event.dbResetActivePlayers (some rid)] ∧
    ((onGameLoop s bets inp).2.2.filter isWireBroadcast) =
      [Event.broadcastFinalValue s.currentRoundNumber s.currentCrashPoint] ∧
    (∀ (bets2 : List Bet) (inp2 : TickInput),
      handleCrashGame (onGameLoop s bets inp).1 bets2 inp2 =
        ((onGameLoop s bets inp).1, bets2, [])) := by
  have hcond : s.currentCrashPoint ≤ inp.liveMultiplier ∧
      Phase.playing = Phase.playing ∧ s.lastProcessedRound ≠ s.currentRoundId :=
    ⟨hge, rfl, hguard⟩
  rcases s with ⟨ph, cri, cm, cp, crn, lpr, lrc, isn⟩
  simp only at hphase hrid hguard hge
  subst hphase hrid
  simp only [onGameLoop, handleCrashGame, processRemainingCrashPlayers, hdb,
    if_pos hcond, if_neg hguard, if_true] at *
  simp [isWireBroadcast, hguard, hge]

/-- Concrete playing-phase state for the C4 witness. -/
def c4State : CrashState :=
  { phase := Phase.playing
    currentRoundId := some 5
    currentMultiplier := 1
    currentCrashPoint := 1
    currentRoundNumber := 7
    lastProcessedRound := none
    lastRoundCompleted := none
    isStartingNewRound := false }

/-- Concrete tick input for the C4 witness: the recomputed multiplier has
just reached the crash point. -/
def c4Input : TickInput :=
  { bettingExpired := false
    liveMultiplier := 1
    resultExpired := false
    betsUpdateOk := true
    newRound := none
    newCrashPoint := 1 }

/-- C4, witness at a concrete state and tick input. -/
theorem C4_witness :
    (c4State.phase = Phase.playing ∧ c4State.currentRoundId = some 5 ∧
     c4State.lastProcessedRound ≠ c4State.currentRoundId ∧
     c4State.currentCrashPoint ≤ c4Input.liveMultiplier ∧
     c4Input.betsUpdateOk = true) ∧
    ((onGameLoop c4State [] c4Input).1.currentMultiplier =
        c4State.currentCrashPoint ∧
     (onGameLoop c4State [] c4Input).1.phase = Phase.crashed ∧
     (onGameLoop c4State [] c4Input).1.lastProcessedRound =
        c4State.currentRoundId ∧
     (onGameLoop c4State [] c4Input).2.2 =
       [Event.dbWriteCurrentMultiplier (some 5) c4Input.liveMultiplier,
        Event.dbWriteCurrentMultiplier (some 5) c4State.currentCrashPoint,
        Event.broadcastFinalValue c4State.currentRoundNumber
          c4State.currentCrashPoint,
        Event.dbWriteRoundCrashed 5 c4State.currentCrashPoint,
        Event.dbMarkBetsCrashed (some 5),
        Event.dbResetActivePlayers (some 5)] ∧
     ((onGameLoop c4State [] c4Input).2.2.filter isWireBroadcast) =
       [Event.broadcastFinalValue c4State.currentRoundNumber
          c4State.currentCrashPoint] ∧
     (∀ (bets2 : List Bet) (inp2 : TickInput),
       handleCrashGame (onGameLoop c4State [] c4Input).1 bets2 inp2 =
         ((onGameLoop c4State [] c4Input).1, bets2, []))) :=
  ⟨⟨rfl, rfl, by decide, le_refl 1, rfl⟩,
   C4_crash_tick_snaps_and_finalizes_once c4State [] c4Input 5 rfl rfl
     (by decide) (le_refl 1) rfl⟩

/-- C6: outside the betting phase every `placeBet` request fails, and outside
the playing phase every cash-out action fails — in both cases with the bet
table returned unchanged and no store calls issued (the functions return
before touching any state). -/
theorem C6_phase_gates (s : CrashState) (bets : List Bet)
    (cfg : Option GameLimits) (userId : ℕ) (amount : ℚ) (rpcOk : Bool)
    (rpc : CashoutRpc) :
    (s.phase ≠ Phase.betting →
      onProcessBet s bets cfg userId amount rpcOk =
        (⟨false, "betting is not currently open"⟩, bets, [])) ∧
    (s.phase ≠ Phase.playing →
      onProcessAction s bets userId GameAction.cashout rpc rpcOk =
        (⟨false, "cashout is only available during the playing phase"⟩,
         bets, [])) := by
  constructor
  · intro h
    simp [onProcessBet, h]
  · intro h
    simp [onProcessAction, h]

/-- C6, witness: the constructor state is in the `waiting` phase, so both
gates reject. -/
theorem C6_witness :
    (constructorState.phase ≠ Phase.betting ∧
     constructorState.phase ≠ Phase.playing) ∧
    (onProcessBet constructorState [] none 1 100 true =
      (⟨false, "betting is not currently open"⟩, [], []) ∧
     onProcessAction constructorState [] 1 GameAction.cashout CashoutRpc.err
        true =
      (⟨false, "cashout is only available during the playing phase"⟩,
       [], [])) :=
  ⟨⟨by decide, by decide⟩,
   ⟨(C6_phase_gates constructorState [] none 1 100 true CashoutRpc.err).1
      (by decide),
    (C6_phase_gates constructorState [] none 1 100 true CashoutRpc.err).2
      (by decide)⟩⟩

/-- At most one bet per `(userId, roundId)`. -/
def atMostOneBetPer (bets : List Bet) : Prop :=
  List.Pairwise (fun a b => ¬(a.userId = b.userId ∧ a.roundId = b.roundId)) bets

/-- C7: a user who already has a bet recorded for the current round can never
place a second one — the call fails with the table unchanged, and, whenever
the earlier phase/limit gates pass, specifically with the duplicate-bet
rejection message; consequently `placeBet` preserves the at-most-one-bet-per-
`(userId, roundId)` invariant of the bet table. -/
theorem C7_duplicate_bet_rejected (s : CrashState) (bets : List Bet)
    (cfg : Option GameLimits) (userId : ℕ) (amount : ℚ) (rpcOk : Bool)
    (b : Bet) (hb : b ∈ bets) (hbu : b.userId = userId)
    (hbr : some b.roundId = s.currentRoundId) :
    ((onProcessBet s bets cfg userId amount rpcOk).1.success = false ∧
     (onProcessBet s bets cfg userId amount rpcOk).2.1 = bets) ∧
    (s.phase = Phase.betting →
     (cfg = none ∨ ∃ gc, cfg = some gc ∧ gc.minBet ≤ amount ∧ amount ≤ gc.maxBet) →
     (onProcessBet s bets cfg userId amount rpcOk).1.message =
       "you already have a bet for this round") ∧
    (∀ (s2 : CrashState) (bets2 : List Bet) (cfg2 : Option GameLimits)
       (u2 : ℕ) (a2 : ℚ) (r2 : Bool),
      atMostOneBetPer bets2 →
      atMostOneBetPer (onProcessBet s2 bets2 cfg2 u2 a2 r2).2.1) := by
  have hfind : (bets.find? fun bb =>
      decide (bb.userId = userId ∧ some bb.roundId = s.currentRoundId)).isSome := by
    rw [List.find?_isSome]
    exact ⟨b, hb, by simp [hbu, hbr]⟩
  refine ⟨?_, ?_, ?_⟩
  · simp only [onProcessBet]
    split_ifs <;> exact ⟨rfl, rfl⟩
  · intro hph hcfg
    simp only [onProcessBet]
    rw [if_neg (not_not_intro hph)]
    rcases hcfg with rfl | ⟨gc, rfl, hmin, hmax⟩
    · rw [if_neg (by simp), if_neg (by simp), if_pos hfind]
    · rw [if_neg (by simp only [decide_eq_true_eq]; exact not_lt.mpr hmin),
        if_neg (by simp only [decide_eq_true_eq]; exact not_lt.mpr hmax),
        if_pos hfind]
  · intro s2 bets2 cfg2 u2 a2 r2 hinv
    simp only [onProcessBet]
    split_ifs with h1 h2 h3 h4
    · exact hinv
    · exact hinv
    · exact hinv
    · exact hinv
    · rcases hrid : s2.currentRoundId with _ | rid
      · simp only [placeBetLedger, hrid]
        exact hinv
      · rcases r2 with _ | _
        · simp only [placeBetLedger, hrid]
          exact hinv
        · simp only [placeBetLedger, hrid]
          have hnone : bets2.find? (fun bb =>
              decide (bb.userId = u2 ∧ some bb.roundId = s2.currentRoundId)) = none := by
            cases hf : bets2.find? (fun bb =>
                decide (bb.userId = u2 ∧ some bb.roundId = s2.currentRoundId)) with
            | none => rfl
            | some x => exact absurd (by rw [hf]; rfl) h4
          have hall := List.find?_eq_none.mp hnone
          rw [atMostOneBetPer, List.pairwise_append]
          refine ⟨hinv, List.pairwise_singleton _ _, ?_⟩
          intro a ha bb hbb
          simp only [List.mem_singleton] at hbb
          subst hbb
          have := hall a ha
          simp only [decide_eq_true_eq, hrid] at this
          intro hcontra
          exact this ⟨hcontra.1, by rw [hcontra.2]⟩

/-- Concrete betting-phase state for the C7 witness. -/
def c7State : CrashState :=
  { phase := Phase.betting
    currentRoundId := some 4
    currentMultiplier := 1
    currentCrashPoint := 1
    currentRoundNumber := 2
    lastProcessedRound := none
    lastRoundCompleted := none
    isStartingNewRound := false }

/-- The existing bet of the C7 witness. -/
def c7Bet : Bet := ⟨2, 4, 50, BetStatus.active⟩

/-- C7, witness: a second bet by user 2 in round 4 is rejected. -/
theorem C7_witness :
    (c7Bet ∈ [c7Bet] ∧ c7Bet.userId = 2 ∧
     some c7Bet.roundId = c7State.currentRoundId) ∧
    (((onProcessBet c7State [c7Bet] none 2 50 true).1.success = false ∧
      (onProcessBet c7State [c7Bet] none 2 50 true).2.1 = [c7Bet]) ∧
     (c7State.phase = Phase.betting →
      ((none : Option GameLimits) = none ∨ ∃ gc, (none : Option GameLimits) = some gc ∧
        gc.minBet ≤ 50 ∧ (50 : ℚ) ≤ gc.maxBet) →
      (onProcessBet c7State [c7Bet] none 2 50 true).1.message =
        "you already have a bet for this round") ∧
     (∀ (s2 : CrashState) (bets2 : List Bet) (cfg2 : Option GameLimits)
        (u2 : ℕ) (a2 : ℚ) (r2 : Bool),
       atMostOneBetPer bets2 →
       atMostOneBetPer (onProcessBet s2 bets2 cfg2 u2 a2 r2).2.1)) :=
  ⟨⟨List.mem_singleton.mpr rfl, rfl, rfl⟩,
   C7_duplicate_bet_rejected c7State [c7Bet] none 2 50 true c7Bet
     (List.mem_singleton.mpr rfl) rfl rfl⟩

/-- Concrete playing-phase state for the C8 scenarios. -/
def c8State : CrashState :=
  { phase := Phase.playing
    currentRoundId := some 3
    currentMultiplier := 2
    currentCrashPoint := 5
    currentRoundNumber := 1
    lastProcessedRound := none
    lastRoundCompleted := none
    isStartingNewRound := false }

/-- C8, counterexample.  At a concrete mismatching cash-out — bet of `100`,
multiplier `2`, ledger-reported payout `300` — the operation is rejected and
the mismatch is logged as the claim says, but the bet does not remain
`active`: the ledger RPC has already marked it `cashed_out` and the engine
performs no compensation, so the claim's "the bet remains active" conjunct is
false on the code. -/
theorem C8_counterexample :
    (onProcessCashout c8State [⟨7, 3, 100, BetStatus.active⟩] 7 2
      (CashoutRpc.ok 300)).1 =
        ⟨false, "payout calculation error detected"⟩ ∧
    (onProcessCashout c8State [⟨7, 3, 100, BetStatus.active⟩] 7 2
      (CashoutRpc.ok 300)).2.2 =
        [Event.rpcCashoutBet 7 2, Event.logCritical 200 300] ∧
    (onProcessCashout c8State [⟨7, 3, 100, BetStatus.active⟩] 7 2
      (CashoutRpc.ok 300)).2.1 =
        [⟨7, 3, 100, BetStatus.cashed_out⟩] ∧
    ∀ bb ∈ (onProcessCashout c8State [⟨7, 3, 100, BetStatus.active⟩] 7 2
      (CashoutRpc.ok 300)).2.1, bb.status ≠ BetStatus.active := by
  have hbets : (onProcessCashout c8State [⟨7, 3, 100, BetStatus.active⟩] 7 2
      (CashoutRpc.ok 300)).2.1 = [⟨7, 3, 100, BetStatus.cashed_out⟩] := by
    with_unfolding_all rfl
  refine ⟨by with_unfolding_all rfl, by with_unfolding_all rfl, hbets, ?_⟩
  rw [hbets]
  intro bb hbb
  simp only [List.mem_singleton] at hbb
  subst hbb
  decide

/-- C8, amended.  When the ledger-reported payout differs from
`bet_amount × multiplier` by more than the `0.01` tolerance, the cash-out is
rejected with the payout-error message and the mismatch is reported through
the critical log; the engine performs no further mutation, so the bet carries
the status the atomic ledger cash-out already applied — `cashed_out`, not
`active` (no bet of that user in the round remains `active`). -/
theorem C8_payout_mismatch_rejected (s : CrashState) (bets : List Bet)
    (userId : ℕ) (cashoutValue payout : ℚ) (b : Bet)
    (hfind : bets.find? (fun bb =>
        decide (bb.userId = userId ∧ some bb.roundId = s.currentRoundId ∧
          bb.status = BetStatus.active)) = some b)
    (hmis : 1 / 100 < |payout - b.amount * cashoutValue|) :
    (onProcessCashout s bets userId cashoutValue (CashoutRpc.ok payout)).1 =
      ⟨false, "payout calculation error detected"⟩ ∧
    Event.logCritical (b.amount * cashoutValue) payout ∈
      (onProcessCashout s bets userId cashoutValue (CashoutRpc.ok payout)).2.2 ∧
    (onProcessCashout s bets userId cashoutValue (CashoutRpc.ok payout)).2.1 =
      cashoutLedger bets userId s.currentRoundId ∧
    ∀ b2 ∈ (onProcessCashout s bets userId cashoutValue
        (CashoutRpc.ok payout)).2.1,
      ¬(b2.userId = userId ∧ some b2.roundId = s.currentRoundId ∧
        b2.status = BetStatus.active) := by
  simp only [onProcessCashout, hfind]
  rw [if_pos hmis]
  refine ⟨rfl, by simp, rfl, ?_⟩
  intro b2 hb2
  simp only [cashoutLedger, List.mem_map] at hb2
  obtain ⟨a, _, rfl⟩ := hb2
  by_cases ha : a.userId = userId ∧ some a.roundId = s.currentRoundId ∧
      a.status = BetStatus.active
  · rw [if_pos ha]
    rintro ⟨_, _, hst⟩
    exact absurd hst (by simp)
  · rw [if_neg ha]
    exact ha

/-- A `round_completed` broadcast is emitted only by a tick that starts in
the `crashed` phase, and it carries the current round number. -/
theorem roundCompleted_emitted {s : CrashState} {bets : List Bet}
    {inp : TickInput} {n : ℕ} {cp : ℚ}
    (h : Event.broadcastRoundCompleted n cp ∈ (onGameLoop s bets inp).2.2) :
    s.phase = Phase.crashed ∧ n = s.currentRoundNumber := by
  rcases s with ⟨ph, cri, cm, cpq, crn, lpr, lrc, isn⟩
  cases ph
  case waiting => simp [onGameLoop] at h
  case betting =>
    simp only [onGameLoop] at h
    split_ifs at h <;> simp [startCrashGame] at h
  case playing =>
    simp only [onGameLoop, handleCrashGame, processRemainingCrashPlayers] at h
    split_ifs at h <;> rcases cri with _ | rid <;> simp at h
  case crashed =>
    simp only [onGameLoop, startNewCrashRound] at h
    split_ifs at h with hc
    · rcases hnr : inp.newRound with _ | r2 <;>
        rw [hnr] at h <;>
        rcases cri with _ | rid <;>
        simp only [completePreviousRound, List.mem_append] at h
      · simp at h
      · split_ifs at h <;> simp at h
        exact ⟨rfl, h.1⟩
      · simp at h
      · split_ifs at h <;> simp at h
        exact ⟨rfl, h.1⟩
    · simp at h

/-- Invariant: once the machine sits in the `crashed` phase, the
`crash_final_value` broadcast of the current round number is already in the
history. -/
def FinalSeen (s : CrashState) (hist : List Event) : Prop :=
  s.phase = Phase.crashed →
    ∃ cp, Event.broadcastFinalValue s.currentRoundNumber cp ∈ hist

/-- `FinalSeen` is preserved by every tick. -/
theorem finalSeen_step (s : CrashState) (bets : List Bet) (inp : TickInput)
    (hist : List Event) (hinv : FinalSeen s hist) :
    FinalSeen (onGameLoop s bets inp).1
      (hist ++ (onGameLoop s bets inp).2.2) := by
  intro hph
  rcases s with ⟨ph, cri, cm, cpq, crn, lpr, lrc, isn⟩
  cases ph
  case waiting => simp [onGameLoop] at hph
  case betting =>
    simp only [onGameLoop] at hph
    split_ifs at hph
    all_goals simp [startCrashGame] at hph
  case playing =>
    simp only [onGameLoop] at hph ⊢
    split_ifs at hph ⊢ with hc
    case pos =>
      simp only [handleCrashGame, processRemainingCrashPlayers]
      split_ifs <;> exact ⟨cpq, by simp⟩
  case crashed =>
    simp only [onGameLoop] at hph ⊢
    split_ifs at hph ⊢ with hc
    case pos =>
      simp only [startNewCrashRound] at hph ⊢
      rcases hnr : inp.newRound with _ | r2 <;>
        (try rw [hnr] at hph) <;>
        rcases cri with _ | rid <;>
        simp only [completePreviousRound] at hph ⊢
      · obtain ⟨cp2, hcp2⟩ := hinv rfl
        exact ⟨cp2, by simp [hcp2]⟩
      · split_ifs at hph ⊢ <;>
          (obtain ⟨cp2, hcp2⟩ := hinv rfl
           exact ⟨cp2, by simp [hcp2]⟩)
      · simp at hph
      · simp at hph
    all_goals
      obtain ⟨cp2, hcp2⟩ := hinv rfl
      exact ⟨cp2, by simp [hcp2]⟩

/-- Every `round_completed` broadcast in a history is preceded by a
`crash_final_value` broadcast for the same round number. -/
def CompletedAfterFinal (hist : List Event) : Prop :=
  ∀ (i n : ℕ) (cp : ℚ),
    hist[i]? = some (Event.broadcastRoundCompleted n cp) →
    ∃ (j : ℕ) (cp2 : ℚ), j < i ∧
      hist[j]? = some (Event.broadcastFinalValue n cp2)

/-- One tick preserves the final-before-completed ordering of the history. -/
theorem completedAfterFinal_step (s : CrashState) (bets : List Bet)
    (inp : TickInput) (hist : List Event)
    (hg : CompletedAfterFinal hist) (hinv : FinalSeen s hist) :
    CompletedAfterFinal (hist ++ (onGameLoop s bets inp).2.2) := by
  intro i n cp hi
  by_cases hlt : i < hist.length
  · rw [List.getElem?_append_left hlt] at hi
    obtain ⟨j, cp2, hj, hjv⟩ := hg i n cp hi
    have hjlt : j < hist.length := lt_trans hj hlt
    exact ⟨j, cp2, hj, by rw [List.getElem?_append_left hjlt]; exact hjv⟩
  · push_neg at hlt
    rw [List.getElem?_append_right hlt] at hi
    have hmem : Event.broadcastRoundCompleted n cp ∈
        (onGameLoop s bets inp).2.2 := by
      obtain ⟨h1, h2⟩ := List.getElem?_eq_some.mp hi
      exact h2 ▸ List.getElem_mem h1
    obtain ⟨hphase, hn⟩ := roundCompleted_emitted hmem
    subst hn
    obtain ⟨cpf, hcpf⟩ := hinv hphase
    obtain ⟨j, hjlen, hjv⟩ := List.getElem_of_mem hcpf
    refine ⟨j, cpf, lt_of_lt_of_le hjlen hlt, ?_⟩
    rw [List.getElem?_append_left hjlen, List.getElem?_eq_getElem hjlen, hjv]

/-- The final-before-completed ordering holds along every run. -/
theorem runTicks_completedAfterFinal (inps : List TickInput) :
    ∀ (s : CrashState) (bets : List Bet) (hist : List Event),
      CompletedAfterFinal hist → FinalSeen s hist →
      CompletedAfterFinal (runTicks (s, bets, hist) inps).2.2 := by
  induction inps with
  | nil =>
    intro s bets hist hg _
    simpa [runTicks] using hg
  | cons inp rest ih =>
    intro s bets hist hg hinv
    simp only [runTicks]
    exact ih _ _ _ (completedAfterFinal_step s bets inp hist hg hinv)
      (finalSeen_step s bets inp hist hinv)

/-- C5: in every execution started outside the `crashed` phase, a
`round_completed` broadcast for a round is always preceded in the history by
the `crash_final_value` broadcast of the same round; and on the tick in which
the multiplier reaches the crash point (with the store update succeeding),
every bet of the round still `active` at that instant is set to `crashed`,
with no cash-out issued by the tick. -/
theorem C5_final_value_order_and_bets_crashed :
    (∀ (s0 : CrashState) (bets0 : List Bet) (inps : List TickInput),
      s0.phase ≠ Phase.crashed →
      CompletedAfterFinal (runTicks (s0, bets0, []) inps).2.2) ∧
    (∀ (s : CrashState) (bets : List Bet) (inp : TickInput) (rid : ℕ),
      s.phase = Phase.playing → s.currentRoundId = some rid →
      s.lastProcessedRound ≠ s.currentRoundId →
      s.currentCrashPoint ≤ inp.liveMultiplier → inp.betsUpdateOk = true →
      (onGameLoop s bets inp).2.1 = bets.map (fun b =>
        if some b.roundId = s.currentRoundId ∧ b.status = BetStatus.active then
          { b with status := BetStatus.crashed } else b) ∧
      (∀ u v, Event.rpcCashoutBet u v ∉ (onGameLoop s bets inp).2.2)) := by
  constructor
  · intro s0 bets0 inps h0
    refine runTicks_completedAfterFinal inps s0 bets0 [] ?_ ?_
    · intro i n cp hi
      simp at hi
    · intro hph
      exact absurd hph h0
  · intro s bets inp rid hphase hrid hguard hge hdb
    have hcond : s.currentCrashPoint ≤ inp.liveMultiplier ∧
        Phase.playing = Phase.playing ∧
        s.lastProcessedRound ≠ s.currentRoundId := ⟨hge, rfl, hguard⟩
    rcases s with ⟨ph, cri, cm, cp, crn, lpr, lrc, isn⟩
    simp only at hphase hrid hguard hge
    subst hphase hrid
    simp only [onGameLoop, handleCrashGame, processRemainingCrashPlayers, hdb,
      if_pos hcond, if_neg hguard, if_true] at *
    simp [hguard, hge]

/-- C5, witness at a concrete state, bet table and tick input. -/
theorem C5_witness :
    (c4State.phase ≠ Phase.crashed ∧ c4State.phase = Phase.playing ∧
     c4State.currentRoundId = some 5 ∧
     c4State.lastProcessedRound ≠ c4State.currentRoundId ∧
     c4State.currentCrashPoint ≤ c4Input.liveMultiplier ∧
     c4Input.betsUpdateOk = true) ∧
    CompletedAfterFinal (runTicks (c4State, [], []) [c4Input]).2.2 ∧
    ((onGameLoop c4State [⟨1, 5, 100, BetStatus.active⟩] c4Input).2.1 =
      ([⟨1, 5, 100, BetStatus.active⟩] : List Bet).map (fun b =>
        if some b.roundId = c4State.currentRoundId ∧
            b.status = BetStatus.active then
          { b with status := BetStatus.crashed } else b) ∧
     (∀ u v, Event.rpcCashoutBet u v ∉
        (onGameLoop c4State [⟨1, 5, 100, BetStatus.active⟩] c4Input).2.2)) :=
  ⟨⟨by decide, rfl, rfl, by decide, le_refl 1, rfl⟩,
   C5_final_value_order_and_bets_crashed.1 c4State [] [c4Input] (by decide),
   C5_final_value_order_and_bets_crashed.2 c4State
     [⟨1, 5, 100, BetStatus.active⟩] c4Input 5 rfl rfl (by decide)
     (le_refl 1) rfl⟩

/-- A tick input of the restart scenario: store writes succeed and every
freshly generated crash point is the generator's constant `1.00`. -/
def c9Tick (be : Bool) (m : ℚ) (re : Bool) (nr : Option ℕ) : TickInput :=
  { bettingExpired := be
    liveMultiplier := m
    resultExpired := re
    betsUpdateOk := true
    newRound := nr
    newCrashPoint := 1 }

/-- First engine run: round 1 plays and crashes, round 2 is created, plays
and crashes; both rounds end marked `completed` in the store. -/
def c9SessionOne : List TickInput :=
  [c9Tick true 1 false none,
   c9Tick false 2 false none,
   c9Tick false 1 true (some 2),
   c9Tick true 1 false none,
   c9Tick false 2 false none]

/-- Second engine run after the restart: the fresh round plays and crashes. -/
def c9SessionTwo : List TickInput :=
  [c9Tick true 1 false none,
   c9Tick false 2 false none]

/-- C9: failing-input evaluation.  Run one: fresh start (no active round in
the store), rounds 1 and 2 crash, and round 2 is already `completed` by crash
finalization.  The process then restarts; `onInitialize` finds no active
round, creates a fresh one and resets `currentRoundNumber` to the literal `1`
(its `// Will be set by the function` comment notwithstanding).  A connection
subscribed across both runs observes crash broadcasts for round numbers
`1, 2, 1` — not strictly increasing by one as the claim requires. -/
theorem C9_restart_resets_round_numbers :
    observedCrashRounds
      ((runTicks ((onInitCrash ⟨none, some 1, 1⟩).getD constructorState, [], [])
          c9SessionOne).2.2 ++
       (runTicks ((onInitCrash ⟨none, some 3, 1⟩).getD constructorState, [], [])
          c9SessionTwo).2.2) = [1, 2, 1] ∧
    ¬ List.Chain' (fun a b => b = a + 1) [1, 2, 1] := by
  constructor
  · with_unfolding_all rfl
  · simp [List.chain'_cons]

/-- C10: the sweep retry loop of `processAutoCashouts` performs at most 3
RPC attempts, its backoff waits strictly increase (50 ms, then 100 ms), and
when every attempt fails the sweep ends in a logged error and a normal
return — no notification is sent and no exception escapes. -/
theorem C10_sweep_retry_bounded (oracle : ℕ → Option SweepResolved) :
    (attemptsOf (processAutoCashoutsModel oracle)).length ≤ 3 ∧
    List.Chain' (· < ·) (sleepsOf (processAutoCashoutsModel oracle)) ∧
    ((∀ i, i < 3 → oracle i = none) →
      processAutoCashoutsModel oracle =
        [Event.rpcAutoCashoutAttempt 0, Event.sleep 50,
         Event.rpcAutoCashoutAttempt 1, Event.sleep 100,
         Event.rpcAutoCashoutAttempt 2, Event.logError]) := by
  have hA : ∀ (l1 l2 : List Event),
      attemptsOf (l1 ++ l2) = attemptsOf l1 ++ attemptsOf l2 := fun l1 l2 =>
    List.filterMap_append l1 l2 _
  have hS : ∀ (l1 l2 : List Event),
      sleepsOf (l1 ++ l2) = sleepsOf l1 ++ sleepsOf l2 := fun l1 l2 =>
    List.filterMap_append l1 l2 _
  have hnotifyA : ∀ (users : List ℕ),
      attemptsOf (users.map Event.notifyAutoCashout) = [] := by
    intro users
    induction users with
    | nil => rfl
    | cons u rest ih => simp [attemptsOf, List.filterMap_cons] at ih ⊢
  have hnotifyS : ∀ (users : List ℕ),
      sleepsOf (users.map Event.notifyAutoCashout) = [] := by
    intro users
    induction users with
    | nil => rfl
    | cons u rest ih => simp [sleepsOf, List.filterMap_cons] at ih ⊢
  have hsplit : ∃ tail, processAutoCashoutsModel oracle =
      (autoRetryGo oracle 3 0).1 ++ tail ∧
      attemptsOf tail = [] ∧ sleepsOf tail = [] := by
    rcases hres : (autoRetryGo oracle 3 0).2 with _ | ⟨err, users⟩
    · exact ⟨[Event.logError], by simp [processAutoCashoutsModel, hres], rfl, rfl⟩
    · cases err
      · exact ⟨users.map Event.notifyAutoCashout,
          by simp [processAutoCashoutsModel, hres],
          hnotifyA users, hnotifyS users⟩
      · exact ⟨[Event.logError], by simp [processAutoCashoutsModel, hres], rfl, rfl⟩
  obtain ⟨tail, htail, htA, htS⟩ := hsplit
  have hlist : (autoRetryGo oracle 3 0).1 = [Event.rpcAutoCashoutAttempt 0] ∨
      (autoRetryGo oracle 3 0).1 =
        [Event.rpcAutoCashoutAttempt 0, Event.sleep 50,
         Event.rpcAutoCashoutAttempt 1] ∨
      (autoRetryGo oracle 3 0).1 =
        [Event.rpcAutoCashoutAttempt 0, Event.sleep 50,
         Event.rpcAutoCashoutAttempt 1, Event.sleep 100,
         Event.rpcAutoCashoutAttempt 2] := by
    rcases h0 : oracle 0 with _ | r0
    · rcases h1 : oracle 1 with _ | r1
      · rcases h2 : oracle 2 with _ | r2 <;>
          (right; right; simp [autoRetryGo, h0, h1, h2])
      · right; left
        simp [autoRetryGo, h0, h1]
    · left
      simp [autoRetryGo, h0]
  refine ⟨?_, ?_, ?_⟩
  · rw [htail, hA, htA]
    rcases hlist with h | h | h <;> rw [h] <;>
      simp [attemptsOf, List.filterMap_cons]
  · rw [htail, hS, htS]
    rcases hlist with h | h | h <;> rw [h] <;>
      simp [sleepsOf, List.filterMap_cons, List.chain'_cons]
  · intro hall
    simp [processAutoCashoutsModel, autoRetryGo,
      hall 0 (by norm_num), hall 1 (by norm_num), hall 2 (by norm_num)]

/-- C10, witness with the all-attempts-fail oracle. -/
theorem C10_witness :
    (∀ i, i < 3 → (fun _ : ℕ => (none : Option SweepResolved)) i = none) ∧
    processAutoCashoutsModel (fun _ => none) =
      [Event.rpcAutoCashoutAttempt 0, Event.sleep 50,
       Event.rpcAutoCashoutAttempt 1, Event.sleep 100,
       Event.rpcAutoCashoutAttempt 2, Event.logError] :=
  ⟨fun _ _ => rfl,
   (C10_sweep_retry_bounded (fun _ => none)).2.2 (fun _ _ => rfl)⟩

/-- C8, witness at the concrete mismatching cash-out. -/
theorem C8_witness :
    (([⟨7, 3, 100, BetStatus.active⟩] : List Bet).find? (fun bb =>
        decide (bb.userId = 7 ∧ some bb.roundId = c8State.currentRoundId ∧
          bb.status = BetStatus.active)) =
      some ⟨7, 3, 100, BetStatus.active⟩ ∧
     (1 / 100 : ℚ) < |300 - (100 : ℚ) * 2|) ∧
    ((onProcessCashout c8State [⟨7, 3, 100, BetStatus.active⟩] 7 2
       (CashoutRpc.ok 300)).1 =
         ⟨false, "payout calculation error detected"⟩ ∧
     Event.logCritical ((100 : ℚ) * 2) 300 ∈
       (onProcessCashout c8State [⟨7, 3, 100, BetStatus.active⟩] 7 2
         (CashoutRpc.ok 300)).2.2 ∧
     (onProcessCashout c8State [⟨7, 3, 100, BetStatus.active⟩] 7 2
       (CashoutRpc.ok 300)).2.1 =
       cashoutLedger [⟨7, 3, 100, BetStatus.active⟩] 7 c8State.currentRoundId ∧
     ∀ b2 ∈ (onProcessCashout c8State [⟨7, 3, 100, BetStatus.active⟩] 7 2
         (CashoutRpc.ok 300)).2.1,
       ¬(b2.userId = 7 ∧ some b2.roundId = c8State.currentRoundId ∧
         b2.status = BetStatus.active)) :=
  ⟨⟨by with_unfolding_all rfl, of_decide_eq_true (by with_unfolding_all rfl)⟩,
   C8_payout_mismatch_rejected c8State [⟨7, 3, 100, BetStatus.active⟩] 7 2 300
     ⟨7, 3, 100, BetStatus.active⟩ (by with_unfolding_all rfl)
     (of_decide_eq_true (by with_unfolding_all rfl))⟩

end Minecash
